import Mathlib

/-!
Shallow embedding of `clean-icloud.py`, a command-line utility that
authenticates to iCloud, enumerates photo items, filters them by an
inclusive creation-date cutoff, and downloads or (after a confirmation
prompt) deletes the matching items.

The embedding models:
  * dates as year/month/day triples ordered lexicographically (the order
    Python's `datetime.date` uses);
  * a remote photo item (`Photo`) with its filename, optional creation
    date (`none` models a missing or unparsable `created` timestamp),
    its byte content, and per-item success flags for the remote
    `download()` and `delete()` calls;
  * observable behaviour as a trace of `Event`s (console output, the
    confirmation `input()` prompt, remote calls, filesystem writes);
  * the filesystem as a directory list plus an association list from
    paths to contents, with last-write-wins overwrite semantics;
  * `download_photos`, `delete_photos`, `login`, `parse_date` and `main`
    as trace-producing functions, with the results of external
    collaborators (YAML config loading, `datetime.strptime`, the 2FA/2SA
    challenge outcomes) supplied as parameters.
-/

/-- A calendar date, as produced by `photo.created.date()`. -/
structure Date where
  year : Nat
  month : Nat
  day : Nat
  deriving DecidableEq, Repr

/-- `Date.le a b` is the lexicographic order on dates, matching Python's
`date.__le__` used in `photo_date <= target_date`. -/
def Date.le (a b : Date) : Bool :=
  Nat.blt a.year b.year ||
    (Nat.beq a.year b.year &&
      (Nat.blt a.month b.month ||
        (Nat.beq a.month b.month && Nat.ble a.day b.day)))

/-- One remote photo item as seen through `api.photos.all`.  `created = none`
models an item whose creation date cannot be read (the `except` branch of the
source's `photo.created.date()` attempts); `downloadOk`/`deleteOk` model
whether the remote `photo.download()`-and-write or `photo.delete()` call
succeeds for this item. -/
structure Photo where
  filename : String
  created : Option Date
  content : String
  downloadOk : Bool
  deleteOk : Bool
  deriving DecidableEq, Repr

/-- Observable events of a run: console prints, `input()` prompts, the
`PyiCloudService` constructor call, remote download/delete attempts,
filesystem writes and directory creation. -/
inductive Event where
  | log (msg : String)
  | prompt (msg : String)
  | authCall (username password : String)
  | downloadAttempt (filename : String)
  | writeFile (path : String) (content : String)
  | deleteCall (filename : String)
  | mkdirCall (dir : String)
  deriving DecidableEq, Repr

/-- Diagnostic printed when a photo's creation date cannot be read
(the source appends the exception text, which the model omits). -/
def diagMsg : String := "Could not determine creation date for a photo"

/-- The confirmation prompt of `delete_photos`. -/
def promptMsg : String :=
  "Are you sure you want to delete these photos? This action cannot be undone. (yes/[no]): "

/-- Python's `str.lower()` (ASCII case folding suffices for the token "yes"),
written over the character list so that it reduces definitionally. -/
def strLower (s : String) : String := ⟨s.data.map Char.toLower⟩

/-- The selection loop of `delete_photos` (lines 104-113 of the source):
walks the enumeration in order, emits a diagnostic and skips items whose
creation date cannot be read, and appends items with `photo_date <= target`
to `photos_to_delete`.  Returns (events, selected items in order). -/
def selectLoop (target : Date) : List Photo → List Event × List Photo
  | [] => ([], [])
  | p :: rest =>
    match p.created with
    | none =>
      let r := selectLoop target rest
      (Event.log diagMsg :: r.1, r.2)
    | some d =>
      let r := selectLoop target rest
      if Date.le d target then (r.1, p :: r.2) else (r.1, r.2)

/-- The deletion loop of `delete_photos` (lines 124-132): attempts
`photo.delete()` on every item; a failure is logged and does not abort the
loop; `count` is incremented only on success.  Returns (events, count). -/
def deleteLoop : List Photo → List Event × Nat
  | [] => ([], 0)
  | p :: rest =>
    let r := deleteLoop rest
    if p.deleteOk then
      (Event.deleteCall p.filename :: Event.log ("Deleted " ++ p.filename) :: r.1, r.2 + 1)
    else
      (Event.deleteCall p.filename :: Event.log ("Failed to delete " ++ p.filename) :: r.1, r.2)

/-- Result of `delete_photos`: either canceled at the confirmation gate, or
completed with the number of successful deletions and the batch total. -/
inductive DeleteOutcome where
  | canceled
  | completed (succeeded : Nat) (total : Nat)
  deriving DecidableEq, Repr

/-- `delete_photos(api, target_date)` with the enumeration supplied as a list
and the operator's confirmation input as a string.  Materializes the matching
list in full, prints its total, asks for confirmation once, and on anything
but a case-insensitive "yes" cancels without deleting. -/
def delete_photos (photos : List Photo) (target : Date) (confirm : String) :
    List Event × DeleteOutcome :=
  let s := selectLoop target photos
  let total := s.2.length
  let headEvs := s.1 ++
    [Event.log ("Found " ++ toString total ++ " photos to delete."),
     Event.prompt promptMsg]
  if strLower confirm ≠ "yes" then
    (headEvs ++ [Event.log "Deletion canceled."], DeleteOutcome.canceled)
  else
    let r := deleteLoop s.2
    (headEvs ++ r.1 ++
      [Event.log ("Deleted " ++ toString r.2 ++ " out of " ++ toString total ++ " photos.")],
     DeleteOutcome.completed r.2 total)

/-- Association-list lookup for the modelled filesystem. -/
def lookupFile : List (String × String) → String → Option String
  | [], _ => none
  | (p, c) :: rest, q => if p = q then some c else lookupFile rest q

/-- Overwriting file write (`open(file_path, "wb")` truncates and rewrites):
updates the entry for `p` in place, or appends it if absent. -/
def setFile : List (String × String) → String → String → List (String × String)
  | [], p, c => [(p, c)]
  | (q, d) :: rest, p, c =>
    if q = p then (q, c) :: rest else (q, d) :: setFile rest p c

/-- The modelled filesystem: existing directories and files (path to content). -/
structure FS where
  dirs : List String
  files : List (String × String)
  deriving DecidableEq, Repr

/-- A single-quote character as a string (used in the download summary line). -/
def squote : String := String.singleton (Char.ofNat 39)

/-- `os.path.join(output_dir, photo.filename)`. -/
def pathJoin (dir filename : String) : String := dir ++ "/" ++ filename

/-- Zero-padded two-digit rendering, as in Python's `str(date)`. -/
def pad2 (n : Nat) : String := if n < 10 then "0" ++ toString n else toString n

/-- Rendering of a date as YYYY-MM-DD, as printed by the download loop. -/
def Date.render (d : Date) : String :=
  toString d.year ++ "-" ++ pad2 d.month ++ "-" ++ pad2 d.day

/-- Lines 76-77 of the source: `if not os.path.exists(output_dir):
os.makedirs(output_dir)`.  Returns the possibly extended filesystem and the
directory-creation events. -/
def ensureDir (fs : FS) (out : String) : FS × List Event :=
  if fs.dirs.contains out then (fs, [])
  else ({ fs with dirs := out :: fs.dirs }, [Event.mkdirCall out])

/-- The download loop of `download_photos` (lines 81-99): per item, read the
creation date (diagnostic and skip on failure), and when it is on or before
the cutoff print the progress line, attempt `photo.download()` plus the file
write (overwriting), and count the successes; a per-item failure is logged
and the loop continues.  Returns (filesystem, events, success count). -/
def downloadLoop (target : Date) (out : String) : FS → List Photo → FS × List Event × Nat
  | fs, [] => (fs, [], 0)
  | fs, p :: rest =>
    match p.created with
    | none =>
      let r := downloadLoop target out fs rest
      (r.1, Event.log diagMsg :: r.2.1, r.2.2)
    | some d =>
      if Date.le d target then
        if p.downloadOk then
          let fs1 : FS := { fs with files := setFile fs.files (pathJoin out p.filename) p.content }
          let r := downloadLoop target out fs1 rest
          (r.1,
           Event.log ("Downloading " ++ p.filename ++ " taken on " ++ Date.render d ++ " ...") ::
             Event.downloadAttempt p.filename ::
             Event.writeFile (pathJoin out p.filename) p.content :: r.2.1,
           r.2.2 + 1)
        else
          let r := downloadLoop target out fs rest
          (r.1,
           Event.log ("Downloading " ++ p.filename ++ " taken on " ++ Date.render d ++ " ...") ::
             Event.downloadAttempt p.filename ::
             Event.log ("Failed to download " ++ p.filename) :: r.2.1,
           r.2.2)
      else
        downloadLoop target out fs rest

/-- `download_photos(api, target_date, output_dir)`: ensures the output
directory exists, runs the download loop, and prints the final summary with
the success count.  Returns (filesystem, events, success count). -/
def download_photos (fs : FS) (photos : List Photo) (target : Date) (out : String) :
    FS × List Event × Nat :=
  let e := ensureDir fs out
  let r := downloadLoop target out e.1 photos
  (r.1,
   e.2 ++ r.2.1 ++
     [Event.log ("Downloaded " ++ toString r.2.2 ++ " photos to " ++
       squote ++ out ++ squote ++ ".")],
   r.2.2)

/-- The YAML config as far as `login` reads it: `config.get("icloud",
{}).get("username")` and `.get("password")`; `none` models a missing key. -/
structure Config where
  username : Option String
  password : Option String
  deriving DecidableEq, Repr

/-- Outcomes of the external authentication collaborator: whether the session
requires 2FA or 2SA, and whether the interactively entered code validates. -/
structure TwoFA where
  requires2fa : Bool
  valid2fa : Bool
  requires2sa : Bool
  valid2sa : Bool
  deriving DecidableEq, Repr

/-- Python truthiness of an optional string: `not x` holds for a missing key
(`None`) and for the empty string. -/
def falsyStr : Option String → Bool
  | none => true
  | some s => s.isEmpty

/-- Either the process exited with a code (`sys.exit`) or a value was
produced and execution continues. -/
inductive Outcome (α : Type) where
  | exited (code : Nat)
  | done (a : α)
  deriving DecidableEq, Repr

/-- `login(config)` (lines 34-64): exits with code 1 when username or
password is falsy, otherwise constructs `PyiCloudService` (the `authCall`
event) and resolves a 2FA or 2SA challenge, exiting with code 1 when the
entered code fails to validate. -/
def login (cfg : Config) (env : TwoFA) : List Event × Outcome Unit :=
  if falsyStr cfg.username || falsyStr cfg.password then
    ([Event.log "Username and/or password not provided in the config file."],
     Outcome.exited 1)
  else
    let evs := [Event.authCall (cfg.username.getD "") (cfg.password.getD "")]
    if env.requires2fa then
      let evs := evs ++
        [Event.log "Two-factor authentication required. A code has been sent to your devices.",
         Event.prompt "Enter the 2FA code: "]
      if env.valid2fa then (evs, Outcome.done ())
      else (evs ++ [Event.log "Failed to verify the 2FA code."], Outcome.exited 1)
    else if env.requires2sa then
      let evs := evs ++
        [Event.log "Two-step authentication required. A code has been sent to your trusted devices.",
         Event.prompt "Enter the 2SA code: "]
      if env.valid2sa then (evs, Outcome.done ())
      else (evs ++ [Event.log "Failed to verify the 2SA code."], Outcome.exited 1)
    else (evs, Outcome.done ())

/-- `parse_date(date_str)` (lines 66-72).  The outcome of the external
`datetime.datetime.strptime(date_str, "%Y-%m-%d")` call is supplied as
`strptimeResult` (`none` models a `ValueError`); on failure the function
prints the error message and exits with code 1. -/
def parse_date (strptimeResult : Option Date) : List Event × Outcome Date :=
  match strptimeResult with
  | some d => ([], Outcome.done d)
  | none =>
    ([Event.log "Invalid date format. Please provide a date in YYYY-MM-DD format."],
     Outcome.exited 1)

/-- The two subcommands of the CLI. -/
inductive Cmd where
  | download (outputDir : String)
  | delete
  deriving DecidableEq, Repr

/-- `main()` (lines 135-186) after argument parsing: no subcommand prints
help and exits 1; otherwise load the config (`cfgLoad = none` models an
unreadable config file), then `login`, then `parse_date`, then dispatch to
`download_photos` or `delete_photos`; a completed run exits with code 0.
Returns (filesystem, events, exit code). -/
def mainRun (fs : FS) (cfgLoad : Option Config) (env : TwoFA)
    (strptimeResult : Option Date) (cmd : Option Cmd)
    (photos : List Photo) (confirm : String) : FS × List Event × Nat :=
  match cmd with
  | none => (fs, [Event.log "usage"], 1)
  | some c =>
    match cfgLoad with
    | none => (fs, [Event.log "Error loading config file."], 1)
    | some cfg =>
      let l := login cfg env
      match l.2 with
      | Outcome.exited code => (fs, l.1, code)
      | Outcome.done _ =>
        let pd := parse_date strptimeResult
        match pd.2 with
        | Outcome.exited code => (fs, l.1 ++ pd.1, code)
        | Outcome.done target =>
          match c with
          | Cmd.download out =>
            let r := download_photos fs photos target out
            (r.1, l.1 ++ pd.1 ++ r.2.1, 0)
          | Cmd.delete =>
            let r := delete_photos photos target confirm
            (fs, l.1 ++ pd.1 ++ r.1, 0)

/-- Whether an event is an `input()` prompt. -/
def Event.isPrompt : Event → Bool
  | Event.prompt _ => true
  | _ => false

/-- Number of `input()` prompts in a trace. -/
def promptCount (tr : List Event) : Nat := tr.countP Event.isPrompt

/-- The filenames on which a remote `delete()` call was attempted, in order. -/
def deleteCalls (tr : List Event) : List String :=
  tr.filterMap fun e =>
    match e with
    | Event.deleteCall f => some f
    | _ => none

/-- Whether an event is a remote download attempt. -/
def Event.isDownloadAttempt : Event → Bool
  | Event.downloadAttempt _ => true
  | _ => false

/-- Number of remote download attempts in a trace. -/
def downloadAttemptCount (tr : List Event) : Nat := tr.countP Event.isDownloadAttempt

/-- Whether the trace contains a `PyiCloudService` constructor call. -/
def hasAuthCall (tr : List Event) : Bool :=
  tr.any fun e =>
    match e with
    | Event.authCall _ _ => true
    | _ => false

/-- The selection predicate both loops apply: the creation date is readable
and on or before the cutoff. -/
def matchesCutoff (target : Date) (p : Photo) : Bool :=
  match p.created with
  | some d => Date.le d target
  | none => false

/-- The write actions a download run performs, in order: one
(path, content) pair per matching item whose download succeeds. -/
def writesOf (target : Date) (out : String) (photos : List Photo) :
    List (String × String) :=
  photos.filterMap fun p =>
    match p.created with
    | some d =>
      if Date.le d target && p.downloadOk then
        some (pathJoin out p.filename, p.content)
      else none
    | none => none

/-- Applying a sequence of overwriting file writes in order. -/
def applyWrites (files : List (String × String)) :
    List (String × String) → List (String × String)
  | [] => files
  | w :: ws => applyWrites (setFile files w.1 w.2) ws

/-- The last content written to path `p` by a write sequence, if any. -/
def lastVal : List (String × String) → String → Option String
  | [], _ => none
  | w :: ws, p =>
    match lastVal ws p with
    | some c => some c
    | none => if w.1 = p then some w.2 else none

theorem selectLoop_sel (target : Date) (photos : List Photo) :
    (selectLoop target photos).2 = photos.filter (matchesCutoff target) := by
  induction photos with
  | nil => rfl
  | cons p rest ih =>
    cases h : p.created with
    | none => simp [selectLoop, h, List.filter, matchesCutoff, ih]
    | some d =>
      by_cases hle : Date.le d target = true
      · simp [selectLoop, h, List.filter, matchesCutoff, hle, ih]
      · simp [selectLoop, h, List.filter, matchesCutoff, hle, ih]

theorem selectLoop_evs (target : Date) (photos : List Photo) :
    (selectLoop target photos).1 =
      List.replicate (photos.countP fun p => p.created.isNone) (Event.log diagMsg) := by
  induction photos with
  | nil => rfl
  | cons p rest ih =>
    cases h : p.created with
    | none => simp [selectLoop, h, List.countP_cons, List.replicate_succ, ih]
    | some d =>
      by_cases hle : Date.le d target = true
      · simp [selectLoop, h, List.countP_cons, hle, ih]
      · simp [selectLoop, h, List.countP_cons, hle, ih]

theorem deleteLoop_calls (sel : List Photo) :
    deleteCalls (deleteLoop sel).1 = sel.map Photo.filename := by
  induction sel with
  | nil => rfl
  | cons p rest ih =>
    by_cases h : p.deleteOk = true
    · simp [deleteLoop, h, deleteCalls, List.filterMap_cons] at ih ⊢
      exact ih
    · simp [deleteLoop, h, deleteCalls, List.filterMap_cons] at ih ⊢
      exact ih

theorem deleteLoop_count (sel : List Photo) :
    (deleteLoop sel).2 = sel.countP Photo.deleteOk := by
  induction sel with
  | nil => rfl
  | cons p rest ih =>
    by_cases h : p.deleteOk = true
    · simp [deleteLoop, h, List.countP_cons, ih]
    · simp [deleteLoop, h, List.countP_cons, ih]

theorem deleteLoop_noPrompt (sel : List Photo) :
    promptCount (deleteLoop sel).1 = 0 := by
  induction sel with
  | nil => rfl
  | cons p rest ih =>
    by_cases h : p.deleteOk = true
    · simp [deleteLoop, h, promptCount, List.countP_cons, Event.isPrompt] at ih ⊢
      exact ih
    · simp [deleteLoop, h, promptCount, List.countP_cons, Event.isPrompt] at ih ⊢
      exact ih

theorem promptCount_append (a b : List Event) :
    promptCount (a ++ b) = promptCount a + promptCount b := by
  simp [promptCount, List.countP_append]

theorem promptCount_replicate_diag (n : Nat) :
    promptCount (List.replicate n (Event.log diagMsg)) = 0 := by
  induction n with
  | zero => rfl
  | succ k ih => simp [List.replicate_succ, promptCount, List.countP_cons, Event.isPrompt, ih]

theorem deleteCalls_append (a b : List Event) :
    deleteCalls (a ++ b) = deleteCalls a ++ deleteCalls b := by
  simp [deleteCalls, List.filterMap_append]

theorem deleteCalls_replicate_diag (n : Nat) :
    deleteCalls (List.replicate n (Event.log diagMsg)) = [] := by
  induction n with
  | zero => rfl
  | succ k ih => simp [List.replicate_succ, deleteCalls, List.filterMap_cons, ih]

theorem downloadLoop_dirs (target : Date) (out : String) (fs : FS) (photos : List Photo) :
    (downloadLoop target out fs photos).1.dirs = fs.dirs := by
  induction photos generalizing fs with
  | nil => rfl
  | cons p rest ih =>
    cases h : p.created with
    | none => simp [downloadLoop, h, ih]
    | some d =>
      by_cases hle : Date.le d target = true
      · by_cases hok : p.downloadOk = true
        · simp [downloadLoop, h, hle, hok, ih]
        · simp [downloadLoop, h, hle, hok, ih]
      · simp [downloadLoop, h, hle, ih]

theorem downloadLoop_count (target : Date) (out : String) (fs : FS) (photos : List Photo) :
    (downloadLoop target out fs photos).2.2 =
      photos.countP fun p => matchesCutoff target p && p.downloadOk := by
  induction photos generalizing fs with
  | nil => rfl
  | cons p rest ih =>
    cases h : p.created with
    | none => simp [downloadLoop, h, matchesCutoff, List.countP_cons, ih]
    | some d =>
      by_cases hle : Date.le d target = true
      · by_cases hok : p.downloadOk = true
        · simp [downloadLoop, h, hle, hok, matchesCutoff, List.countP_cons, ih]
        · simp [downloadLoop, h, hle, hok, matchesCutoff, List.countP_cons, ih]
      · simp [downloadLoop, h, hle, matchesCutoff, List.countP_cons, ih]

theorem downloadLoop_attempts (target : Date) (out : String) (fs : FS) (photos : List Photo) :
    downloadAttemptCount (downloadLoop target out fs photos).2.1 =
      photos.countP (matchesCutoff target) := by
  induction photos generalizing fs with
  | nil => rfl
  | cons p rest ih =>
    cases h : p.created with
    | none =>
      simp [downloadLoop, h, matchesCutoff, downloadAttemptCount, List.countP_cons,
        Event.isDownloadAttempt] at ih ⊢
      exact ih fs
    | some d =>
      by_cases hle : Date.le d target = true
      · by_cases hok : p.downloadOk = true
        · simp [downloadLoop, h, hle, hok, matchesCutoff, downloadAttemptCount,
            List.countP_cons, Event.isDownloadAttempt] at ih ⊢
          exact ih _
        · simp [downloadLoop, h, hle, hok, matchesCutoff, downloadAttemptCount,
            List.countP_cons, Event.isDownloadAttempt] at ih ⊢
          exact ih fs
      · simp [downloadLoop, h, hle, matchesCutoff, downloadAttemptCount,
          List.countP_cons, Event.isDownloadAttempt] at ih ⊢
        exact ih fs

theorem downloadLoop_files (target : Date) (out : String) (fs : FS) (photos : List Photo) :
    (downloadLoop target out fs photos).1.files =
      applyWrites fs.files (writesOf target out photos) := by
  induction photos generalizing fs with
  | nil => rfl
  | cons p rest ih =>
    cases h : p.created with
    | none => simp [downloadLoop, h, writesOf, List.filterMap_cons, ih]
    | some d =>
      by_cases hle : Date.le d target = true
      · by_cases hok : p.downloadOk = true
        · simp [downloadLoop, h, hle, hok, writesOf, List.filterMap_cons, applyWrites, ih]
        · simp [downloadLoop, h, hle, hok, writesOf, List.filterMap_cons, ih]
      · simp [downloadLoop, h, hle, writesOf, List.filterMap_cons, ih]

theorem lookup_setFile (l : List (String × String)) (p c q : String) :
    lookupFile (setFile l p c) q = if p = q then some c else lookupFile l q := by
  induction l with
  | nil =>
    by_cases h : p = q
    · simp [setFile, lookupFile, h]
    · simp [setFile, lookupFile, h]
  | cons w rest ih =>
    by_cases hw : w.1 = p
    · by_cases hq : p = q
      · simp [setFile, lookupFile, hw, hq]
      · have hwq : ¬ w.1 = q := fun hc => hq (hw.symm.trans hc)
        simp [setFile, lookupFile, hw, hq, hwq]
    · by_cases hwq : w.1 = q
      · have hpq : ¬ p = q := fun hc => hw (hwq.trans hc.symm)
        have hqp : ¬ q = p := fun hc => hpq hc.symm
        simp [setFile, lookupFile, hw, hwq, hpq, hqp]
      · simp [setFile, lookupFile, hw, hwq, ih]

theorem lookup_applyWrites (ws : List (String × String)) (l : List (String × String)) (q : String) :
    lookupFile (applyWrites l ws) q =
      match lastVal ws q with
      | some c => some c
      | none => lookupFile l q := by
  induction ws generalizing l with
  | nil => rfl
  | cons w ws ih =>
    cases hl : lastVal ws q with
    | some c => simp [applyWrites, lastVal, hl, ih]
    | none =>
      by_cases hw : w.1 = q
      · simp [applyWrites, lastVal, hl, hw, ih, lookup_setFile]
      · simp [applyWrites, lastVal, hl, hw, ih, lookup_setFile]

theorem applyWrites_idem (ws : List (String × String)) (l : List (String × String)) (q : String) :
    lookupFile (applyWrites (applyWrites l ws) ws) q = lookupFile (applyWrites l ws) q := by
  cases hl : lastVal ws q with
  | some c => simp [lookup_applyWrites, hl]
  | none => simp [lookup_applyWrites, hl]

theorem ensureDir_files (fs : FS) (out : String) :
    (ensureDir fs out).1.files = fs.files := by
  by_cases h : out ∈ fs.dirs
  · simp [ensureDir, h]
  · simp [ensureDir, h]

theorem ensureDir_of_contains (fs : FS) (out : String) (h : out ∈ fs.dirs) :
    ensureDir fs out = (fs, []) := by
  simp [ensureDir, h]

theorem download_photos_files (fs : FS) (photos : List Photo) (target : Date) (out : String) :
    (download_photos fs photos target out).1.files =
      applyWrites fs.files (writesOf target out photos) := by
  simp [download_photos, downloadLoop_files, ensureDir_files]

theorem download_photos_dirs_contains (fs : FS) (photos : List Photo) (target : Date) (out : String) :
    out ∈ ((download_photos fs photos target out).1).dirs := by
  by_cases h : out ∈ fs.dirs
  · simp [download_photos, downloadLoop_dirs, ensureDir, h]
  · simp [download_photos, downloadLoop_dirs, ensureDir, h]

theorem download_photos_dirs (fs : FS) (photos : List Photo) (target : Date) (out : String) :
    (download_photos fs photos target out).1.dirs = (ensureDir fs out).1.dirs := by
  simp [download_photos, downloadLoop_dirs]

theorem download_photos_count (fs : FS) (photos : List Photo) (target : Date) (out : String) :
    (download_photos fs photos target out).2.2 =
      photos.countP fun p => matchesCutoff target p && p.downloadOk := by
  simp [download_photos, downloadLoop_count]

/-- C1: in every delete run the matching list is materialized in full and its
total count printed before anything destructive happens: the trace splits as
`pre ++ prompt :: post` where `pre` carries the pre-action count message for
the whole selection and contains no delete call, and neither `pre` nor `post`
contains another prompt — exactly one confirmation gate per run, covering the
whole batch, and no item is deleted before it. -/
theorem delete_single_confirmation_gate (photos : List Photo) (target : Date) (confirm : String) :
    ∃ pre post : List Event,
      (delete_photos photos target confirm).1 = pre ++ Event.prompt promptMsg :: post ∧
      promptCount pre = 0 ∧ promptCount post = 0 ∧
      deleteCalls pre = [] ∧
      Event.log ("Found " ++ toString (photos.filter (matchesCutoff target)).length
        ++ " photos to delete.") ∈ pre := by
  rw [← selectLoop_sel]
  by_cases hc : strLower confirm = "yes"
  · refine ⟨(selectLoop target photos).1 ++
      [Event.log ("Found " ++ toString (selectLoop target photos).2.length ++ " photos to delete.")],
      (deleteLoop (selectLoop target photos).2).1 ++
        [Event.log ("Deleted " ++ toString (deleteLoop (selectLoop target photos).2).2 ++
          " out of " ++ toString (selectLoop target photos).2.length ++ " photos.")],
      ?_, ?_, ?_, ?_, ?_⟩
    · simp [delete_photos, hc]
    · rw [promptCount_append, selectLoop_evs, promptCount_replicate_diag]
      simp [promptCount, List.countP_cons, Event.isPrompt]
    · rw [promptCount_append, deleteLoop_noPrompt]
      simp [promptCount, List.countP_cons, Event.isPrompt]
    · rw [deleteCalls_append, selectLoop_evs, deleteCalls_replicate_diag]
      simp [deleteCalls, List.filterMap_cons]
    · simp
  · refine ⟨(selectLoop target photos).1 ++
      [Event.log ("Found " ++ toString (selectLoop target photos).2.length ++ " photos to delete.")],
      [Event.log "Deletion canceled."], ?_, ?_, ?_, ?_, ?_⟩
    · simp [delete_photos, hc]
    · rw [promptCount_append, selectLoop_evs, promptCount_replicate_diag]
      simp [promptCount, List.countP_cons, Event.isPrompt]
    · simp [promptCount, List.countP_cons, Event.isPrompt]
    · rw [deleteCalls_append, selectLoop_evs, deleteCalls_replicate_diag]
      simp [deleteCalls, List.filterMap_cons]
    · simp

/-- C2: the batch deletion proceeds iff the confirmation input equals "yes"
case-insensitively; on any other input (empty, "no", "y", ...) the outcome is
`canceled`, no remote delete call is made, the cancellation message is
printed, and the full run still exits with code 0 — a normal, non-error
termination. -/
theorem delete_confirmation_token (photos : List Photo) (target : Date) (confirm : String)
    (cfg : Config) (env : TwoFA) (fs : FS)
    (hu : falsyStr cfg.username = false) (hp : falsyStr cfg.password = false)
    (h2fa : env.requires2fa = false) (h2sa : env.requires2sa = false) :
    ((delete_photos photos target confirm).2 = DeleteOutcome.canceled ↔ strLower confirm ≠ "yes")
    ∧ (strLower confirm ≠ "yes" →
        deleteCalls (delete_photos photos target confirm).1 = [] ∧
        Event.log "Deletion canceled." ∈ (delete_photos photos target confirm).1 ∧
        (mainRun fs (some cfg) env (some target) (some Cmd.delete) photos confirm).2.2 = 0) := by
  constructor
  · by_cases hc : strLower confirm = "yes"
    · simp [delete_photos, hc]
    · simp [delete_photos, hc]
  · intro hc
    refine ⟨?_, ?_, ?_⟩
    · simp only [delete_photos, if_pos hc]
      rw [deleteCalls_append, deleteCalls_append, selectLoop_evs, deleteCalls_replicate_diag]
      simp [deleteCalls, List.filterMap_cons]
    · simp [delete_photos, hc]
    · simp [mainRun, login, parse_date, hu, hp, h2fa, h2sa]

/-- C2 witness: declining with "no" on a nonempty batch cancels: the outcome
is `canceled` and no remote delete call is made. -/
theorem delete_confirmation_token_witness :
    (delete_photos [⟨"a", some ⟨2021, 1, 1⟩, "", true, true⟩] ⟨2022, 1, 1⟩ "no").2 =
        DeleteOutcome.canceled ∧
    deleteCalls (delete_photos [⟨"a", some ⟨2021, 1, 1⟩, "", true, true⟩]
      ⟨2022, 1, 1⟩ "no").1 = [] :=
  ⟨((delete_confirmation_token [⟨"a", some ⟨2021, 1, 1⟩, "", true, true⟩] ⟨2022, 1, 1⟩ "no"
      ⟨some "user", some "pw"⟩ ⟨false, true, false, true⟩ ⟨[], []⟩
      (by decide) (by decide) rfl rfl).1).mpr (by decide),
   ((delete_confirmation_token [⟨"a", some ⟨2021, 1, 1⟩, "", true, true⟩] ⟨2022, 1, 1⟩ "no"
      ⟨some "user", some "pw"⟩ ⟨false, true, false, true⟩ ⟨[], []⟩
      (by decide) (by decide) rfl rfl).2 (by decide)).1⟩

/-- C5: an item with readable creation date `d` is selected iff `d <= cutoff`
(inclusive upper bound), the selection is the order-preserving filter of the
enumeration, and on the three-item scenario with dates 2021-12-31,
2022-01-01, 2022-01-02 and cutoff 2022-01-01 exactly the first two items are
selected, in enumeration order. -/
theorem selection_inclusive_and_ordered (photos : List Photo) (target : Date) :
    (selectLoop target photos).2 = photos.filter (matchesCutoff target) ∧
    (∀ p d, p ∈ photos → p.created = some d →
      (p ∈ (selectLoop target photos).2 ↔ Date.le d target = true)) ∧
    (selectLoop ⟨2022, 1, 1⟩
        [⟨"a", some ⟨2021, 12, 31⟩, "", true, true⟩,
         ⟨"b", some ⟨2022, 1, 1⟩, "", true, true⟩,
         ⟨"c", some ⟨2022, 1, 2⟩, "", true, true⟩]).2 =
      [⟨"a", some ⟨2021, 12, 31⟩, "", true, true⟩,
       ⟨"b", some ⟨2022, 1, 1⟩, "", true, true⟩] := by
  refine ⟨selectLoop_sel target photos, ?_, by decide⟩
  intro p d hp hd
  rw [selectLoop_sel]
  simp [List.mem_filter, matchesCutoff, hd, hp]

/-- C5 witness: the boundary item created exactly on the cutoff date is
selected. -/
theorem selection_inclusive_and_ordered_witness :
    (⟨"b", some ⟨2022, 1, 1⟩, "", true, true⟩ : Photo) ∈
      (selectLoop ⟨2022, 1, 1⟩
        [⟨"a", some ⟨2021, 12, 31⟩, "", true, true⟩,
         ⟨"b", some ⟨2022, 1, 1⟩, "", true, true⟩,
         ⟨"c", some ⟨2022, 1, 2⟩, "", true, true⟩]).2 :=
  ((selection_inclusive_and_ordered
      [⟨"a", some ⟨2021, 12, 31⟩, "", true, true⟩,
       ⟨"b", some ⟨2022, 1, 1⟩, "", true, true⟩,
       ⟨"c", some ⟨2022, 1, 2⟩, "", true, true⟩] ⟨2022, 1, 1⟩).2.1
    ⟨"b", some ⟨2022, 1, 1⟩, "", true, true⟩ ⟨2022, 1, 1⟩
    (by decide) rfl).mpr (by decide)

/-- C6: an item whose creation date is missing or unparsable is never
selected, in either loop: it contributes exactly one diagnostic, is skipped,
and enumeration of the remaining items continues — the selection, the
download filesystem effect and the success count over the rest are
unchanged; and every unreadable item in the enumeration yields its own
diagnostic. -/
theorem missing_date_never_selected (photos : List Photo) (target : Date) (p : Photo)
    (hm : p.created = none) :
    p ∉ (selectLoop target photos).2 ∧
    (selectLoop target (p :: photos)).1 = Event.log diagMsg :: (selectLoop target photos).1 ∧
    (selectLoop target (p :: photos)).2 = (selectLoop target photos).2 ∧
    (∀ fs out,
      (downloadLoop target out fs (p :: photos)).1 = (downloadLoop target out fs photos).1 ∧
      (downloadLoop target out fs (p :: photos)).2.1 =
        Event.log diagMsg :: (downloadLoop target out fs photos).2.1 ∧
      (downloadLoop target out fs (p :: photos)).2.2 =
        (downloadLoop target out fs photos).2.2) ∧
    (selectLoop target photos).1.length = photos.countP fun q => q.created.isNone := by
  refine ⟨?_, ?_, ?_, ?_, ?_⟩
  · rw [selectLoop_sel]
    simp [List.mem_filter, matchesCutoff, hm]
  · simp [selectLoop, hm]
  · simp [selectLoop, hm]
  · intro fs out
    refine ⟨?_, ?_, ?_⟩ <;> simp [downloadLoop, hm]
  · rw [selectLoop_evs]
    simp

/-- C6 witness: a concrete item with a missing creation date is not selected
even under a late cutoff. -/
theorem missing_date_never_selected_witness :
    (⟨"x", none, "", true, true⟩ : Photo) ∉
      (selectLoop ⟨2022, 1, 1⟩
        [⟨"a", some ⟨2021, 1, 1⟩, "", true, true⟩,
         ⟨"x", none, "", true, true⟩]).2 :=
  (missing_date_never_selected
    [⟨"a", some ⟨2021, 1, 1⟩, "", true, true⟩, ⟨"x", none, "", true, true⟩]
    ⟨2022, 1, 1⟩ ⟨"x", none, "", true, true⟩ rfl).1

theorem deleteCalls_cons_log (m : String) (tr : List Event) :
    deleteCalls (Event.log m :: tr) = deleteCalls tr := rfl

theorem deleteCalls_cons_prompt (m : String) (tr : List Event) :
    deleteCalls (Event.prompt m :: tr) = deleteCalls tr := rfl

theorem deleteCalls_nil : deleteCalls [] = [] := rfl

theorem delete_photos_yes (photos : List Photo) (target : Date) (confirm : String)
    (hc : strLower confirm = "yes") :
    delete_photos photos target confirm =
      ((selectLoop target photos).1 ++
        Event.log ("Found " ++ toString (selectLoop target photos).2.length ++
          " photos to delete.") ::
        Event.prompt promptMsg ::
        ((deleteLoop (selectLoop target photos).2).1 ++
          [Event.log ("Deleted " ++ toString (deleteLoop (selectLoop target photos).2).2 ++
            " out of " ++ toString (selectLoop target photos).2.length ++ " photos.")]),
       DeleteOutcome.completed (deleteLoop (selectLoop target photos).2).2
         (selectLoop target photos).2.length) := by
  simp [delete_photos, hc]

theorem countP_partition (sel : List Photo) :
    sel.countP Photo.deleteOk + sel.countP (fun p => ! p.deleteOk) = sel.length := by
  induction sel with
  | nil => rfl
  | cons p rest ih =>
    by_cases h : p.deleteOk = true
    · simp [List.countP_cons, h]
      omega
    · simp [List.countP_cons, h]
      omega

theorem countP_sub_not (sel : List Photo) :
    sel.countP Photo.deleteOk =
      sel.length - (sel.filter fun p => ! p.deleteOk).length := by
  have h1 := List.countP_eq_length_filter (fun p : Photo => ! p.deleteOk) sel
  have h2 := countP_partition sel
  omega

theorem downloadAttemptCount_append (a b : List Event) :
    downloadAttemptCount (a ++ b) = downloadAttemptCount a + downloadAttemptCount b := by
  simp [downloadAttemptCount, List.countP_append]

theorem ensureDir_attempts (fs : FS) (out : String) :
    downloadAttemptCount (ensureDir fs out).2 = 0 := by
  by_cases h : out ∈ fs.dirs <;>
    simp [ensureDir, h, downloadAttemptCount, List.countP_cons, Event.isDownloadAttempt]

theorem delete_photos_no (photos : List Photo) (target : Date) (confirm : String)
    (hc : ¬ strLower confirm = "yes") :
    delete_photos photos target confirm =
      ((selectLoop target photos).1 ++
        Event.log ("Found " ++ toString (selectLoop target photos).2.length ++
          " photos to delete.") ::
        Event.prompt promptMsg :: [Event.log "Deletion canceled."],
       DeleteOutcome.canceled) := by
  simp [delete_photos, hc]

theorem download_photos_last (fs : FS) (photos : List Photo) (target : Date) (out : String) :
    (download_photos fs photos target out).2.1.getLast? =
      some (Event.log ("Downloaded " ++ toString ((download_photos fs photos target out).2.2)
        ++ " photos to " ++ squote ++ out ++ squote ++ ".")) := by
  simp only [download_photos]
  rw [List.getLast?_concat]

/-- C3 counterexample: an invocation whose `--date` fails to parse, with a
valid config and credentials, still invokes the authentication collaborator
(the `PyiCloudService` constructor) before exiting with code 1 — `main`
performs `login(config)` before `parse_date(args.date)`. -/
theorem main_checks_date_after_auth_counterexample :
    hasAuthCall (mainRun ⟨[], []⟩ (some ⟨some "user", some "pw"⟩)
      ⟨false, true, false, true⟩ none (some Cmd.delete) [] "").2.1 = true ∧
    (mainRun ⟨[], []⟩ (some ⟨some "user", some "pw"⟩)
      ⟨false, true, false, true⟩ none (some Cmd.delete) [] "").2.2 = 1 := by decide

/-- C3 amended: an invocation whose `--date` argument is not parseable as
YYYY-MM-DD prints the date error and exits with non-zero status and no
photo action runs, but only after config loading and authentication: on such
an invocation with a well-formed config and successful login the
authentication collaborator has already been invoked when the run exits. -/
theorem main_invalid_date_exits_after_auth (fs : FS) (cfg : Config) (env : TwoFA)
    (photos : List Photo) (confirm : String) (cmd : Cmd)
    (hu : falsyStr cfg.username = false) (hp : falsyStr cfg.password = false)
    (h2fa : env.requires2fa = false) (h2sa : env.requires2sa = false) :
    (mainRun fs (some cfg) env none (some cmd) photos confirm).2.2 = 1 ∧
    Event.log "Invalid date format. Please provide a date in YYYY-MM-DD format." ∈
      (mainRun fs (some cfg) env none (some cmd) photos confirm).2.1 ∧
    hasAuthCall (mainRun fs (some cfg) env none (some cmd) photos confirm).2.1 = true := by
  refine ⟨?_, ?_, ?_⟩ <;>
    simp [mainRun, login, parse_date, hu, hp, h2fa, h2sa, hasAuthCall]

/-- C3 amended witness: concrete invalid-date delete invocation exits 1. -/
theorem main_invalid_date_exits_after_auth_witness :
    (mainRun ⟨[], []⟩ (some ⟨some "user", some "pw"⟩) ⟨false, true, false, true⟩
      none (some Cmd.delete) [] "").2.2 = 1 :=
  (main_invalid_date_exits_after_auth ⟨[], []⟩ ⟨some "user", some "pw"⟩
    ⟨false, true, false, true⟩ [] "" Cmd.delete
    (by decide) (by decide) rfl rfl).1

/-- C4 counterexample: on an empty enumeration the delete run still issues
the confirmation prompt (one `input()` is read), rather than skipping it. -/
theorem delete_empty_prompt_counterexample :
    promptCount (delete_photos [] ⟨2022, 1, 1⟩ "").1 = 1 := by decide

/-- C4 amended: on an empty enumeration the selection is empty, delete
reports "Found 0 photos to delete." and deletes nothing, and download
reports a zero-count summary; however the confirmation prompt is still
presented (exactly one prompt) even though there is nothing to delete. -/
theorem empty_enumeration_reports (target : Date) (confirm : String) (fs : FS) (out : String) :
    (selectLoop target []).2 = [] ∧
    Event.log "Found 0 photos to delete." ∈ (delete_photos [] target confirm).1 ∧
    deleteCalls (delete_photos [] target confirm).1 = [] ∧
    promptCount (delete_photos [] target confirm).1 = 1 ∧
    (download_photos fs [] target out).2.2 = 0 ∧
    (download_photos fs [] target out).2.1.getLast? =
      some (Event.log ("Downloaded 0 photos to " ++ squote ++ out ++ squote ++ ".")) := by
  refine ⟨rfl, ?_, ?_, ?_, ?_, ?_⟩
  · by_cases hc : strLower confirm = "yes"
    · rw [delete_photos_yes [] target confirm hc]
      simp only [selectLoop, deleteLoop]
      decide
    · rw [delete_photos_no [] target confirm hc]
      simp only [selectLoop]
      decide
  · by_cases hc : strLower confirm = "yes"
    · rw [delete_photos_yes [] target confirm hc]
      simp only [selectLoop, deleteLoop]
      decide
    · rw [delete_photos_no [] target confirm hc]
      simp only [selectLoop]
      decide
  · by_cases hc : strLower confirm = "yes"
    · rw [delete_photos_yes [] target confirm hc]
      simp only [selectLoop, deleteLoop]
      decide
    · rw [delete_photos_no [] target confirm hc]
      simp only [selectLoop]
      decide
  · rw [download_photos_count]
    simp
  · rw [download_photos_last, download_photos_count]
    simp only [List.countP_nil]
    rfl

/-- C7: partial failures are soft and counted: on a confirmed delete run
every selected item is attempted, in selection order, and the outcome
reports succeeded = N - k for a batch of N with k failing items, with the
final summary printed; the download run likewise attempts every matching
item and succeeds on exactly the items whose download does not fail. -/
theorem partial_failure_counts (photos : List Photo) (target : Date) (confirm : String)
    (fs : FS) (out : String) (hc : strLower confirm = "yes") :
    deleteCalls (delete_photos photos target confirm).1 =
      (photos.filter (matchesCutoff target)).map Photo.filename ∧
    (delete_photos photos target confirm).2 =
      DeleteOutcome.completed
        ((photos.filter (matchesCutoff target)).length -
          ((photos.filter (matchesCutoff target)).filter fun p => ! p.deleteOk).length)
        (photos.filter (matchesCutoff target)).length ∧
    Event.log ("Deleted " ++
        toString ((photos.filter (matchesCutoff target)).countP Photo.deleteOk) ++
        " out of " ++ toString (photos.filter (matchesCutoff target)).length ++
        " photos.") ∈ (delete_photos photos target confirm).1 ∧
    downloadAttemptCount (download_photos fs photos target out).2.1 =
      photos.countP (matchesCutoff target) ∧
    (download_photos fs photos target out).2.2 =
      photos.countP fun p => matchesCutoff target p && p.downloadOk := by
  refine ⟨?_, ?_, ?_, ?_, ?_⟩
  · rw [delete_photos_yes photos target confirm hc]
    simp [deleteCalls_append, deleteCalls_cons_log, deleteCalls_cons_prompt, deleteCalls_nil,
      selectLoop_evs, deleteCalls_replicate_diag, deleteLoop_calls, selectLoop_sel]
  · rw [delete_photos_yes photos target confirm hc]
    simp only [selectLoop_sel, deleteLoop_count]
    rw [countP_sub_not]
  · rw [delete_photos_yes photos target confirm hc]
    simp only [selectLoop_sel, deleteLoop_count]
    simp [List.mem_append]
  · simp only [download_photos]
    rw [downloadAttemptCount_append, downloadAttemptCount_append, ensureDir_attempts,
      downloadLoop_attempts]
    simp [downloadAttemptCount, List.countP_cons, Event.isDownloadAttempt]
  · exact download_photos_count fs photos target out

/-- C7 witness: a two-item confirmed batch with one failing delete reports
one success out of two. -/
theorem partial_failure_counts_witness :
    (delete_photos
      [⟨"a", some ⟨2021, 1, 1⟩, "", true, false⟩,
       ⟨"b", some ⟨2021, 6, 1⟩, "", true, true⟩]
      ⟨2022, 1, 1⟩ "yes").2 = DeleteOutcome.completed 1 2 :=
  (partial_failure_counts
    [⟨"a", some ⟨2021, 1, 1⟩, "", true, false⟩,
     ⟨"b", some ⟨2021, 6, 1⟩, "", true, true⟩]
    ⟨2022, 1, 1⟩ "yes" ⟨[], []⟩ "downloads" (by decide)).2.1

/-- C8 counterexample: a run whose single matching item fails to download
(one attempt, zero successes) is reported identically to a run with no items
at all (zero attempts): same returned success count and same final summary
line — so the count of attempted downloads is not reported. -/
theorem download_report_counterexample :
    downloadAttemptCount (download_photos ⟨["downloads"], []⟩
      [⟨"a.jpg", some ⟨2021, 1, 1⟩, "x", false, true⟩]
      ⟨2022, 1, 1⟩ "downloads").2.1 = 1 ∧
    downloadAttemptCount (download_photos ⟨["downloads"], []⟩ []
      ⟨2022, 1, 1⟩ "downloads").2.1 = 0 ∧
    (download_photos ⟨["downloads"], []⟩
      [⟨"a.jpg", some ⟨2021, 1, 1⟩, "x", false, true⟩]
      ⟨2022, 1, 1⟩ "downloads").2.2 =
      (download_photos ⟨["downloads"], []⟩ [] ⟨2022, 1, 1⟩ "downloads").2.2 ∧
    (download_photos ⟨["downloads"], []⟩
      [⟨"a.jpg", some ⟨2021, 1, 1⟩, "x", false, true⟩]
      ⟨2022, 1, 1⟩ "downloads").2.1.getLast? =
      (download_photos ⟨["downloads"], []⟩ [] ⟨2022, 1, 1⟩ "downloads").2.1.getLast? := by
  decide

/-- C8 amended: the download run reports the count of succeeded downloads —
its returned count and its final summary line both carry exactly the number
of matching items whose download succeeded; the count of attempted downloads
is not part of the report. -/
theorem download_reports_succeeded_only (fs : FS) (photos : List Photo)
    (target : Date) (out : String) :
    (download_photos fs photos target out).2.2 =
      photos.countP (fun p => matchesCutoff target p && p.downloadOk) ∧
    (download_photos fs photos target out).2.1.getLast? =
      some (Event.log ("Downloaded " ++
        toString (photos.countP fun p => matchesCutoff target p && p.downloadOk) ++
        " photos to " ++ squote ++ out ++ squote ++ ".")) := by
  refine ⟨download_photos_count fs photos target out, ?_⟩
  rw [download_photos_last, download_photos_count]

/-- C9: download is idempotent on the filesystem: running it a second time
with the same cutoff and output directory leaves the same files on disk
(every path maps to the same content — overwrites, no duplicates) and the
same directories; re-ensuring the already existing output directory changes
nothing, and ensuring a directory never clears file contents. -/
theorem download_idempotent (fs : FS) (photos : List Photo) (target : Date) (out : String) :
    (∀ p, lookupFile
        ((download_photos (download_photos fs photos target out).1 photos target out).1).files p =
      lookupFile ((download_photos fs photos target out).1).files p) ∧
    ((download_photos (download_photos fs photos target out).1 photos target out).1).dirs =
      ((download_photos fs photos target out).1).dirs ∧
    ensureDir (download_photos fs photos target out).1 out =
      ((download_photos fs photos target out).1, []) ∧
    (∀ g : FS, (ensureDir g out).1.files = g.files) := by
  refine ⟨?_, ?_, ?_, fun g => ensureDir_files g out⟩
  · intro p
    rw [download_photos_files, download_photos_files]
    exact applyWrites_idem (writesOf target out photos) fs.files p
  · rw [download_photos_dirs (download_photos fs photos target out).1,
      ensureDir_of_contains _ _ (download_photos_dirs_contains fs photos target out)]
  · exact ensureDir_of_contains _ _ (download_photos_dirs_contains fs photos target out)

/-- C10: when the config's username or password is absent or empty (any
falsy value), `login` prints the credential error and exits with code 1, and
the external authentication service is never invoked — no `PyiCloudService`
constructor call appears in the trace. -/
theorem login_falsy_credentials (cfg : Config) (env : TwoFA)
    (h : (falsyStr cfg.username || falsyStr cfg.password) = true) :
    login cfg env =
      ([Event.log "Username and/or password not provided in the config file."],
       Outcome.exited 1) ∧
    hasAuthCall (login cfg env).1 = false := by
  constructor
  · simp [login, h]
  · simp [login, h, hasAuthCall]

/-- C10 witness: an empty-string password (falsy but present) blocks the
external authentication call. -/
theorem login_falsy_credentials_witness :
    hasAuthCall (login ⟨some "user", some ""⟩ ⟨false, true, false, true⟩).1 = false :=
  (login_falsy_credentials ⟨some "user", some ""⟩ ⟨false, true, false, true⟩
    (by decide)).2

